import Mathlib

/-!
Verification development for the Rapid-Minutes-Export client.

The definitions below are a shallow embedding of the relevant JavaScript
sources: the upload/processing page script (static/js/app.js and its
variant), the download coordinator (static/js/download.js), and the
enhanced UX layer with its progress manager (static/js/enhanced-ux.js).
DOM mutations are modelled as fields of explicit state records, timers as
lists of scheduled tasks or handles, and asynchronous fetches as explicit
dispatch and resolve steps on those records.
-/

namespace RapidMinutes

/-- A browser File object as the scripts consume it: the declared media
type, the file name, and the byte size. -/
structure JsFile where
  type : String
  name : String
  size : Nat
deriving Repr, DecidableEq

/-- Lowercasing as used by the scripts via toLowerCase (ASCII range). -/
def jsToLower (s : String) : String := String.mk (s.data.map Char.toLower)

/-- Whether the first list starts with the second. -/
def listStartsWith : List Char → List Char → Bool
  | _, [] => true
  | [], _ :: _ => false
  | a :: as, b :: bs => a = b && listStartsWith as bs

/-- Whether the needle occurs as a contiguous sublist of the haystack, as
String.prototype.includes reports. -/
def containsSub : List Char → List Char → Bool
  | [], needle => needle.isEmpty
  | c :: cs, needle => listStartsWith (c :: cs) needle || containsSub cs needle

/-- The endsWith test of the scripts, computed on the character lists. -/
def strEndsWith (s suffix : String) : Bool :=
  listStartsWith s.data.reverse suffix.data.reverse

/-- State of app.js: the two globals (currentFileId, processCheckInterval),
the stored window.selectedFile, the visible parts of the page the script
mutates, timer-handle bookkeeping for setInterval/clearInterval, the ids
of dispatched but unresolved status fetches, and the list of messages
passed to showError (in order). -/
structure AppState where
  currentFileId : Option String
  selectedFile : Option JsFile
  processCheckInterval : Option Nat
  activeIntervals : List Nat
  nextHandle : Nat
  inFlight : List Nat
  nextReqId : Nat
  fileInfoVisible : Bool
  fileNameText : String
  generateSectionVisible : Bool
  downloadSectionVisible : Bool
  progressContainerVisible : Bool
  progressWidth : Nat
  progressText : String
  generateButtonDisabled : Bool
  generateButtonVisible : Bool
  generateButtonText : String
  errorVisible : Bool
  errorText : String
  successVisible : Bool
  fileInputValue : String
  emittedErrors : List String
deriving Repr, DecidableEq

/-- The page state right after load, before any user action. -/
def initApp : AppState where
  currentFileId := none
  selectedFile := none
  processCheckInterval := none
  activeIntervals := []
  nextHandle := 0
  inFlight := []
  nextReqId := 0
  fileInfoVisible := false
  fileNameText := ""
  generateSectionVisible := false
  downloadSectionVisible := false
  progressContainerVisible := false
  progressWidth := 0
  progressText := ""
  generateButtonDisabled := false
  generateButtonVisible := true
  generateButtonText := "Start Generate Meeting Minutes"
  errorVisible := false
  errorText := ""
  successVisible := false
  fileInputValue := ""
  emittedErrors := []

namespace App

/-- showError of app.js: writes the message into the error box, reveals
it, and (for accounting) records the emission. -/
def showError (s : AppState) (msg : String) : AppState :=
  { s with errorText := msg, errorVisible := true,
           emittedErrors := s.emittedErrors ++ [msg] }

/-- The allowedTypes constant of processFile. -/
def allowedTypes : List String := ["text/plain"]

/-- The maxSize constant of processFile: 10 * 1024 * 1024 bytes. -/
def maxSize : Nat := 10 * 1024 * 1024

/-- processFile of app.js: rejects when the declared type is not in
allowedTypes and the lowercased name does not end in .txt, or when the
size exceeds maxSize; otherwise shows the file info, reveals the generate
section, and stores the file in window.selectedFile. There is no check
against size zero. -/
def processFile (s : AppState) (file : JsFile) : AppState :=
  if !(allowedTypes.contains file.type) && !(strEndsWith (jsToLower file.name) ".txt") then
    showError s "Please select a .txt text file"
  else if file.size > maxSize then
    showError s "File size cannot exceed 10MB"
  else
    { s with fileInfoVisible := true, fileNameText := file.name,
             generateSectionVisible := true, selectedFile := some file }

/-- The decoded JSON body of a 2xx response of GET /api/status/{id}. -/
structure StatusJson where
  status : String
  progress : Option Nat
  error : Option String
deriving Repr, DecidableEq

/-- Outcome of one status fetch: the promise rejected (network failure or
JSON decode failure), the response was non-2xx (response.ok false, which
the callback turns into a thrown error), or a decoded 2xx body. -/
inductive FetchOutcome where
  | reject
  | httpError
  | ok (body : StatusJson)
deriving Repr, DecidableEq

/-- clearInterval(processCheckInterval) as called inside the callbacks:
reads the global at call time; a null handle is a no-op. -/
def clearIntervalJs (s : AppState) : AppState :=
  match s.processCheckInterval with
  | some h => { s with activeIntervals := s.activeIntervals.erase h }
  | none => s

/-- startProcessMonitoring of app.js up to the setInterval call: clears a
previous interval when present and registers a fresh one at a 2000 ms
cadence. Ticks of the registered interval are delivered as events below. -/
def startProcessMonitoring (s : AppState) : AppState :=
  let s := if s.processCheckInterval.isSome then clearIntervalJs s else s
  { s with processCheckInterval := some s.nextHandle,
           activeIntervals := s.activeIntervals ++ [s.nextHandle],
           nextHandle := s.nextHandle + 1 }

/-- updateProgress of app.js: writes status.progress (defaulting to 0)
into the bar width and picks the message from the status table, falling
back to a percentage string. -/
def updateProgress (s : AppState) (st : StatusJson) : AppState :=
  let progress := st.progress.getD 0
  let table : List (String × String) :=
    [("processing", "Processing..."), ("uploading", "Uploading..."),
     ("extracting", "AI analyzing..."), ("generating", "Generating document..."),
     ("completed", "Processing complete!")]
  let text :=
    match table.lookup st.status with
    | some m => m
    | none => "Processing... " ++ toString progress ++ "%"
  { s with progressWidth := progress, progressText := text }

/-- resetGenerateButton of app.js. -/
def resetGenerateButton (s : AppState) : AppState :=
  { s with generateButtonDisabled := false,
           generateButtonText := "Start Generate Meeting Minutes",
           generateButtonVisible := true,
           progressContainerVisible := false }

/-- showDownloadSection of app.js, with showSuccess folded in as the
success banner becoming visible (its 3 s auto-hide timer is not needed by
any property below). -/
def showDownloadSection (s : AppState) : AppState :=
  { s with downloadSectionVisible := true, successVisible := true }

/-- The body of the setInterval callback of startProcessMonitoring, run
when the dispatched status fetch settles. A rejection or a non-2xx
response reaches the catch block: clearInterval, showError, and
resetGenerateButton. A decoded body first runs updateProgress, then on
completed clears the interval and shows the download section, on failed
clears the interval, shows the error, and resets the generate button. -/
def resolveStatus (s : AppState) (o : FetchOutcome) : AppState :=
  match o with
  | .reject =>
      resetGenerateButton (showError (clearIntervalJs s) "Unable to get processing status")
  | .httpError =>
      resetGenerateButton (showError (clearIntervalJs s) "Unable to get processing status")
  | .ok st =>
      let s := updateProgress s st
      if st.status = "completed" then
        showDownloadSection (clearIntervalJs s)
      else if st.status = "failed" then
        resetGenerateButton (showError (clearIntervalJs s) (st.error.getD "Processing failed"))
      else s

/-- handleReset of app.js: clears both globals, cancels the interval when
present, hides every section, resets the generate button, and hides the
error and success banners. Dispatched fetches are not cancelled. -/
def handleReset (s : AppState) : AppState :=
  let s := { s with currentFileId := none, selectedFile := none }
  let s :=
    match s.processCheckInterval with
    | some h => { s with activeIntervals := s.activeIntervals.erase h,
                         processCheckInterval := none }
    | none => s
  resetGenerateButton
    { s with fileInputValue := "", fileInfoVisible := false,
             generateSectionVisible := false, downloadSectionVisible := false,
             progressContainerVisible := false, errorVisible := false,
             successVisible := false }

/-- Events of the polling machinery: a timer tick of interval h (fires only
while h is registered; the callback dispatches one status fetch and
suspends), the settlement of dispatched fetch r, and a reset click. -/
inductive AppEvent where
  | tick (h : Nat)
  | resolve (r : Nat) (o : FetchOutcome)
  | reset
deriving Repr, DecidableEq

/-- One step of the event loop. A tick of a registered interval dispatches
a status request unconditionally (the source has no in-flight guard); a
settlement of an outstanding request runs the callback continuation; a
reset runs handleReset. -/
def stepApp (s : AppState) (e : AppEvent) : AppState :=
  match e with
  | .tick h =>
      if s.activeIntervals.contains h then
        { s with inFlight := s.inFlight ++ [s.nextReqId], nextReqId := s.nextReqId + 1 }
      else s
  | .resolve r o =>
      if s.inFlight.contains r then
        resolveStatus { s with inFlight := s.inFlight.erase r } o
      else s
  | .reset => handleReset s

end App

/-- The downloading/completed/error classes that setDownloadButtonState
adds to a download button; a button carrying none of them is in the
normal (idle) presentation. -/
inductive BtnPhase where
  | downloading
  | completed
  | error
deriving Repr, DecidableEq

/-- One download button as download.js drives it: which of the three
transient classes it carries, its label, its disabled flag, and the
unavailable class toggled by updateDownloadAvailability. -/
structure BtnState where
  phase : Option BtnPhase
  text : String
  disabled : Bool
  unavailable : Bool
deriving Repr, DecidableEq

/-- State of the DownloadManager instance of download.js: the stored
process id, both buttons, the section and message elements, the scheduled
button reverts (file type paired with the delay in ms), and a count of
download fetches dispatched so far. -/
structure DLState where
  currentProcessId : Option String
  wordBtn : BtnState
  pdfBtn : BtnState
  sectionVisible : Bool
  messageVisible : Bool
  messageText : String
  messageKind : String
  pendingReverts : List (String × Nat)
  requestsIssued : Nat
deriving Repr, DecidableEq

namespace DownloadManager

/-- The default label restored by the final branch of
setDownloadButtonState. -/
def defaultBtnText (fileType : String) : String :=
  if fileType = "word" then "Download Word" else "Download PDF"

/-- The per-button effect of setDownloadButtonState: the three classes are
removed, then the switch adds one class, sets the label and disabled flag,
and for completed and error schedules a revert to normal after 3000 ms
and 5000 ms respectively. Returns the new button and the scheduled
reverts. -/
def setBtn (b : BtnState) (fileType state : String) : BtnState × List (String × Nat) :=
  if state = "downloading" then
    ({ b with phase := some .downloading,
              text := "Downloading " ++ fileType.toUpper ++ "...",
              disabled := true }, [])
  else if state = "completed" then
    ({ b with phase := some .completed,
              text := fileType.toUpper ++ " Downloaded",
              disabled := false }, [(fileType, 3000)])
  else if state = "error" then
    ({ b with phase := some .error,
              text := fileType.toUpper ++ " Failed",
              disabled := false }, [(fileType, 5000)])
  else
    ({ b with phase := none, text := defaultBtnText fileType, disabled := false }, [])

/-- setDownloadButtonState of download.js: picks the word button when the
file type is word and the pdf button otherwise, and applies setBtn. -/
def setDownloadButtonState (s : DLState) (fileType state : String) : DLState :=
  if fileType = "word" then
    let (b, rs) := setBtn s.wordBtn fileType state
    { s with wordBtn := b, pendingReverts := s.pendingReverts ++ rs }
  else
    let (b, rs) := setBtn s.pdfBtn fileType state
    { s with pdfBtn := b, pendingReverts := s.pendingReverts ++ rs }

/-- The button the source selects for a file type. -/
def btnOf (s : DLState) (fileType : String) : BtnState :=
  if fileType = "word" then s.wordBtn else s.pdfBtn

/-- showMessage of download.js (the 5 s auto-hide of the message box is
not needed by any property below). -/
def showMessage (s : DLState) (message kind : String) : DLState :=
  { s with messageVisible := true, messageText := message, messageKind := kind }

/-- showSuccess of download.js. -/
def showSuccess (s : DLState) (message : String) : DLState :=
  showMessage s message "success"

/-- showError of download.js. -/
def showError (s : DLState) (message : String) : DLState :=
  showMessage s message "error"

/-- initializeDownloads of download.js: stores the process id and shows
the download section (the click handlers are wired to downloadFile). -/
def initializeDownloads (s : DLState) (processId : String) : DLState :=
  { s with currentProcessId := some processId, sectionVisible := true }

/-- Falsiness of the stored process id as the guard of downloadFile sees
it: null or the empty string. -/
def pidMissing : Option String → Bool
  | none => true
  | some p => p.data.isEmpty

/-- The part of downloadFile that runs before its await: the only guard is
the falsiness of the stored process id; otherwise the button is put into
downloading and one GET for the artifact is dispatched. There is no check
of the current button phase. -/
def downloadFileStart (s : DLState) (fileType : String) : DLState :=
  if pidMissing s.currentProcessId then
    showError s "No process ID available for download"
  else
    let s := setDownloadButtonState s fileType "downloading"
    { s with requestsIssued := s.requestsIssued + 1 }

/-- Settlement of the artifact fetch of downloadFile: a 2xx response with
its Content-Disposition header, or any failure (rejection, non-2xx, or
blob failure), which the catch block handles. -/
inductive DlOutcome where
  | ok (contentDisposition : Option String)
  | fail
deriving Repr, DecidableEq

/-- The continuation of downloadFile after its awaits settle: on success
the button turns completed and a success message is shown; on any failure
the button turns error and an error message is shown. -/
def downloadFileResolve (s : DLState) (fileType : String) (o : DlOutcome) : DLState :=
  match o with
  | .ok _ =>
      showSuccess (setDownloadButtonState s fileType "completed")
        (fileType.toUpper ++ " file downloaded successfully!")
  | .fail =>
      showError (setDownloadButtonState s fileType "error")
        ("Failed to download " ++ fileType.toUpper ++ " file")

/-- reset of download.js: clears the process id, hides the section, puts
both buttons back to normal via resetDownloadButton, and hides the
message box. Scheduled revert timers are not cancelled. -/
def reset (s : DLState) : DLState :=
  let s := { s with currentProcessId := none, sectionVisible := false }
  let s := setDownloadButtonState s "word" "normal"
  let s := setDownloadButtonState s "pdf" "normal"
  { s with messageVisible := false }

/-- The single-quote character (code 39), written by code point to keep
the development free of quote literals. -/
def squote : Char := Char.ofNat 39

/-- The double-quote character (code 34). -/
def dquote : Char := Char.ofNat 34

/-- Membership in the character class of the quoted alternative opener,
the regex class with the two quote characters. -/
def isQuoteChar (c : Char) : Bool := c = squote || c = dquote

/-- What the regex dot matches: any character except the JavaScript line
terminators (LF, CR, LS, PS). -/
def dotChar (c : Char) : Bool :=
  !(c = Char.ofNat 10) && !(c = Char.ofNat 13) &&
  !(c = Char.ofNat 0x2028) && !(c = Char.ofNat 0x2029)

/-- The negated class between filename and the equals sign: every
character except semicolon, equals sign, and LF. -/
def classAChar (c : Char) : Bool :=
  !(c = ';') && !(c = '=') && !(c = Char.ofNat 10)

/-- The negated class of the unquoted alternative: every character except
semicolon and LF. -/
def classBChar (c : Char) : Bool := !(c = ';') && !(c = Char.ofNat 10)

/-- The lazy quoted middle: the shortest run of dot-matching characters up
to the next closing quote q; none when no closing quote is reachable. -/
def lazyQuoted (q : Char) : List Char → Option (List Char)
  | [] => none
  | c :: cs =>
      if c = q then some []
      else if dotChar c then (lazyQuoted q cs).map (fun m => c :: m)
      else none

/-- The capture group of the filename regex, matched against the text
after the equals sign: the quoted alternative (a quote, a lazy dot run,
the same quote) when it applies, else the greedy unquoted run of
classBChar characters starting at the same position. -/
def group1 : List Char → List Char
  | [] => []
  | c :: cs =>
      if isQuoteChar c then
        match lazyQuoted c cs with
        | some mid => c :: (mid ++ [c])
        | none => (c :: cs).takeWhile classBChar
      else (c :: cs).takeWhile classBChar

/-- One anchored attempt of the filename regex: the literal filename, a
greedy run of classAChar characters (deterministic, since an equals sign
can never be inside the run), the equals sign, then the capture group.
Returns the capture on success. -/
def matchAt (cs : List Char) : Option (List Char) :=
  if listStartsWith cs ("filename".data) then
    let rest := cs.drop 8
    let run := rest.takeWhile classAChar
    match rest.drop run.length with
    | c :: tail => if c = '=' then some (group1 tail) else none
    | [] => none
  else none

/-- The leftmost match of the filename regex: anchored attempts at every
start position, left to right, as String.prototype.match performs them. -/
def findGroup1 : List Char → Option (List Char)
  | [] => none
  | c :: cs =>
      match matchAt (c :: cs) with
      | some g => some g
      | none => findGroup1 cs

/-- Failure of every anchored regex attempt whose start position lies
inside the first list, with the second list as the remaining text. Used
to state that the leftmost match of a header lies past a given part of
it. -/
def scanFails : List Char → List Char → Bool
  | [], _ => true
  | c :: cs, suffix => (matchAt ((c :: cs) ++ suffix)).isNone && scanFails cs suffix

/-- extractFilename of download.js. The header argument is the value of
response.headers.get, null when absent. The timestamp argument stands for
the date part of new Date().toISOString(), which depends on the clock.
When the header is a nonempty string containing filename= the regex is
run and a truthy (nonempty) capture is returned with every quote
character removed; otherwise the fallback name is produced from the
timestamp and the type-dependent extension. -/
def extractFilename (contentDisposition : Option String) (fileType timestamp : String) :
    String :=
  let fallback :=
    "meeting_minutes_" ++ timestamp ++ "." ++ (if fileType = "word" then "docx" else "pdf")
  match contentDisposition with
  | some cd =>
      if !cd.data.isEmpty && containsSub cd.data ("filename=".data) then
        match findGroup1 cd.data with
        | some g =>
            if !g.isEmpty then String.mk (g.filter (fun c => !isQuoteChar c)) else fallback
        | none => fallback
      else fallback
  | none => fallback

/-- A DownloadManager as constructed on page load. -/
def initDL : DLState where
  currentProcessId := none
  wordBtn := { phase := none, text := "Download Word", disabled := false, unavailable := false }
  pdfBtn := { phase := none, text := "Download PDF", disabled := false, unavailable := false }
  sectionVisible := false
  messageVisible := false
  messageText := ""
  messageKind := ""
  pendingReverts := []
  requestsIssued := 0

end DownloadManager

/-- A JavaScript value as the status-check code can observe one after
JSON decoding: undefined, null, a boolean, a number, a string, or an
object given by its fields. -/
inductive JsVal where
  | undefined
  | jnull
  | jbool (b : Bool)
  | jnum (n : Int)
  | jstr (s : String)
  | jobj (fields : List (String × JsVal))

/-- JavaScript truthiness of such a value (NaN aside, numbers are falsy
exactly at zero). -/
def truthy : JsVal → Bool
  | .undefined => false
  | .jnull => false
  | .jbool b => b
  | .jnum n => !(n = 0)
  | .jstr s => !s.isEmpty
  | .jobj _ => true

/-- Field lookup in an object literal; a missing field reads as
undefined. -/
def getField : List (String × JsVal) → String → JsVal
  | [], _ => .undefined
  | (k, v) :: rest, key => if k = key then v else getField rest key

/-- Property access: throws (models a TypeError) on undefined and null,
reads the field of an object, and yields undefined on the remaining
primitives. -/
def jsGet (v : JsVal) (key : String) : Except Unit JsVal :=
  match v with
  | .undefined => .error ()
  | .jnull => .error ()
  | .jobj fs => .ok (getField fs key)
  | _ => .ok .undefined

/-- Total variant of the field read, usable once the receiver is known to
be truthy (hence neither undefined nor null). -/
def jsFieldOf (v : JsVal) (key : String) : JsVal :=
  match v with
  | .jobj fs => getField fs key
  | _ => .undefined

/-- The short-circuit conjunction data.f1 && data.f1.f2 as evaluated in
the returned object literal of checkDownloadStatus. -/
def jsAndGet (data : JsVal) (f1 f2 : String) : Except Unit JsVal :=
  match jsGet data f1 with
  | .error e => .error e
  | .ok a => if truthy a then jsGet a f2 else .ok a

namespace DownloadManager

/-- The object checkDownloadStatus returns. -/
structure DownloadStatusResult where
  success : JsVal
  wordReady : JsVal
  pdfReady : JsVal
  message : JsVal

/-- checkDownloadStatus of download.js. The argument is the combined
settlement of the availability fetch and its JSON decoding: an error when
either throws, else the decoded value. The try block builds the result
object field by field; any throw inside it (including property access on
a null or undefined body) reaches the catch block, which returns the
fixed failure object. -/
def checkDownloadStatus (fetched : Except Unit JsVal) : DownloadStatusResult :=
  let attempt : Except Unit DownloadStatusResult :=
    match fetched with
    | .error e => .error e
    | .ok data =>
        match jsGet data "success" with
        | .error e => .error e
        | .ok su =>
            match jsAndGet data "files" "word" with
            | .error e => .error e
            | .ok w =>
                match jsAndGet data "files" "pdf" with
                | .error e => .error e
                | .ok p =>
                    match jsGet data "message" with
                    | .error e => .error e
                    | .ok m => .ok ⟨su, w, p, m⟩
  match attempt with
  | .ok r => r
  | .error _ =>
      ⟨.jbool false, .jbool false, .jbool false, .jstr "Failed to check download status"⟩

end DownloadManager

/-- State of the EnhancedUX notification subsystem: the stack of shown
notifications (id paired with kind, in order of appearance) and the
scheduled automatic dismissals (id paired with the delay in ms). -/
structure UXState where
  shown : List (String × String)
  autoDismissals : List (String × Nat)
deriving Repr, DecidableEq

namespace EnhancedUX

/-- showNotification of enhanced-ux.js. The now argument is the Date.now
reading used as the id. The element is appended to the container and,
unless the kind is error, one automatic dismissal of this id is scheduled
5000 ms out. Returns the new state and the id. -/
def showNotification (s : UXState) (now : Nat) (kind title message : String)
    (actions : List (String × String)) : UXState × String :=
  let id := toString now
  let s := { s with shown := s.shown ++ [(id, kind)] }
  let s :=
    if kind ≠ "error" then
      { s with autoDismissals := s.autoDismissals ++ [(id, 5000)] }
    else s
  (s, id)

end EnhancedUX

/-- State of the ProgressManager instance of enhanced-ux.js: the stored
percentage, the rendered bar (width, color, text), the container
visibility, and the polling interval handle. -/
structure PMState where
  currentProgress : Int
  fillWidth : Int
  fillColor : String
  textContent : String
  containerVisible : Bool
  updateInterval : Option Nat
deriving Repr, DecidableEq

namespace ProgressManager

/-- updateProgress of the ProgressManager: clamps the percentage at 100
through Math.min, writes it to the bar, and sets the message, defaulting
to a percentage string. No lower bound and no comparison with the
previous value is applied. -/
def updateProgress (s : PMState) (percentage : Int) (message : Option String) : PMState :=
  let cp := min percentage 100
  { s with currentProgress := cp, fillWidth := cp,
           textContent := message.getD ("Processing... " ++ toString cp ++ "%") }

/-- The clearInterval helper of the ProgressManager. -/
def stopInterval (s : PMState) : PMState := { s with updateInterval := none }

/-- hideProgress of the ProgressManager. -/
def hideProgress (s : PMState) : PMState :=
  stopInterval { s with containerVisible := false }

/-- startProgress of the ProgressManager: zeroes the stored progress,
shows the container, applies updateProgress at 5, and registers the 1000
ms polling interval under the given handle. -/
def startProgress (s : PMState) (handle : Nat) : PMState :=
  let s := { s with currentProgress := 0, containerVisible := true }
  let s := updateProgress s 5 (some "Starting AI processing...")
  { s with updateInterval := some handle }

/-- completeProgress of the ProgressManager (its 2 s delayed hide is not
needed by any property below). -/
def completeProgress (s : PMState) (message : String) : PMState :=
  stopInterval (updateProgress s 100 (some message))

/-- errorProgress of the ProgressManager: re-applies the stored progress
with the error message, stops the interval, and recolors the bar. -/
def errorProgress (s : PMState) (message : String) : PMState :=
  let s := updateProgress s s.currentProgress (some ("Error: " ++ message))
  { (stopInterval s) with fillColor := "#ff4444" }

/-- The decoded body of the progress endpoint as checkProgressStatus
consumes it. -/
structure ProgressJson where
  success : Bool
  progress : Int
  message : Option String
  status : String
deriving Repr, DecidableEq

/-- The continuation of checkProgressStatus: none stands for a rejected
fetch or failed decode (the catch block), some for a decoded body. -/
def checkProgressResolve (s : PMState) (o : Option ProgressJson) : PMState :=
  match o with
  | none => errorProgress s "Failed to check progress status"
  | some d =>
      if d.success then
        let s := updateProgress s d.progress d.message
        if d.progress ≥ 100 ∨ d.status = "completed" then
          completeProgress s (d.message.getD "Processing completed!")
        else if d.status = "error" then
          errorProgress s (d.message.getD "Processing failed")
        else s
      else s

/-- reset of the ProgressManager. -/
def reset (s : PMState) : PMState :=
  let s := stopInterval s
  let s := { s with currentProgress := 0 }
  let s := hideProgress s
  { s with fillWidth := 0, fillColor := "#007AFF", textContent := "" }

/-- A ProgressManager as constructed on page load. -/
def initPM : PMState where
  currentProgress := 0
  fillWidth := 0
  fillColor := "#007AFF"
  textContent := ""
  containerVisible := false
  updateInterval := none

end ProgressManager

/-! Theorems on the embedded operations. -/

/-- C1 counterexample: a zero-size file with the plain-text media type is
not rejected by processFile — it is stored as the selected file, the
generate section is revealed, and no error is emitted, contradicting the
claim that zero-size files leave the session in Idle with one Validation
error. -/
theorem processFile_zero_size_counterexample :
    (App.processFile initApp ⟨"text/plain", "notes.txt", 0⟩).selectedFile
      = some ⟨"text/plain", "notes.txt", 0⟩
    ∧ (App.processFile initApp ⟨"text/plain", "notes.txt", 0⟩).generateSectionVisible = true
    ∧ (App.processFile initApp ⟨"text/plain", "notes.txt", 0⟩).emittedErrors = [] := by
  refine ⟨rfl, rfl, rfl⟩

/-- C1 amended: for every file whose declared media type is not plain
text and whose lowercased name does not end in .txt, or whose size
exceeds 10 MiB, processFile leaves the session unchanged with respect to
the stored file, the file-info box, and the generate step, and emits
exactly one error; zero size is not checked and is not a rejection
cause. -/
theorem processFile_reject_spec (s : AppState) (f : JsFile)
    (h : (App.allowedTypes.contains f.type = false
            ∧ strEndsWith (jsToLower f.name) ".txt" = false)
          ∨ f.size > App.maxSize) :
    (App.processFile s f).selectedFile = s.selectedFile
    ∧ (App.processFile s f).generateSectionVisible = s.generateSectionVisible
    ∧ (App.processFile s f).fileInfoVisible = s.fileInfoVisible
    ∧ (App.processFile s f).emittedErrors.length = s.emittedErrors.length + 1 := by
  unfold App.processFile
  split
  · simp [App.showError]
  · next h1 =>
    split
    · simp [App.showError]
    · next h2 =>
      exfalso
      rcases h with ⟨hc, he⟩ | hs
      · refine h1 ?_
        rw [hc, he]
        rfl
      · exact h2 hs

/-- C1 witness at a concrete rejected file. -/
theorem processFile_reject_spec_witness :
    (App.processFile initApp ⟨"application/pdf", "notes.pdf", 5⟩).selectedFile
      = initApp.selectedFile
    ∧ (App.processFile initApp ⟨"application/pdf", "notes.pdf", 5⟩).generateSectionVisible
      = initApp.generateSectionVisible
    ∧ (App.processFile initApp ⟨"application/pdf", "notes.pdf", 5⟩).fileInfoVisible
      = initApp.fileInfoVisible
    ∧ (App.processFile initApp ⟨"application/pdf", "notes.pdf", 5⟩).emittedErrors.length
      = initApp.emittedErrors.length + 1 :=
  processFile_reject_spec initApp ⟨"application/pdf", "notes.pdf", 5⟩
    (Or.inl ⟨by decide, by decide⟩)

/-- C2 counterexample: starting the monitor and letting one tick dispatch
one status request, a single transport failure of that request already
removes the interval from the active set — the loop is stopped by the
first failure, not by a third consecutive one. -/
theorem single_poll_failure_counterexample :
    (App.stepApp (App.startProcessMonitoring initApp) (App.AppEvent.tick 0)).activeIntervals
      = [0]
    ∧ (App.stepApp (App.stepApp (App.startProcessMonitoring initApp) (App.AppEvent.tick 0))
        (App.AppEvent.resolve 0 App.FetchOutcome.reject)).activeIntervals = []
    ∧ (App.stepApp (App.stepApp (App.startProcessMonitoring initApp) (App.AppEvent.tick 0))
        (App.AppEvent.resolve 0 App.FetchOutcome.reject)).emittedErrors
      = ["Unable to get processing status"] := by
  refine ⟨rfl, rfl, rfl⟩

/-- C2 amended: a single transport-level poll failure (rejected request
or non-2xx response) stops the loop at once: the handler clears the
current interval, emits exactly one error, and re-enables the generate
button. There is no consecutive-failure counter; the loop stops on a
terminal status, on the first transport failure, or on reset. -/
theorem poll_transport_failure_stops_loop (s : AppState) (r : Nat) (o : App.FetchOutcome)
    (hr : r ∈ s.inFlight)
    (ho : o = App.FetchOutcome.reject ∨ o = App.FetchOutcome.httpError) :
    (App.stepApp s (App.AppEvent.resolve r o)).activeIntervals
      = (match s.processCheckInterval with
         | some hh => s.activeIntervals.erase hh
         | none => s.activeIntervals)
    ∧ (App.stepApp s (App.AppEvent.resolve r o)).emittedErrors
      = s.emittedErrors ++ ["Unable to get processing status"]
    ∧ (App.stepApp s (App.AppEvent.resolve r o)).generateButtonDisabled = false := by
  rcases ho with ho | ho <;> subst ho <;>
    cases hpc : s.processCheckInterval <;>
      simp [App.stepApp, hr, App.resolveStatus, App.clearIntervalJs, hpc,
        App.showError, App.resetGenerateButton]

/-- C2 witness at the concrete one-tick run. -/
theorem poll_transport_failure_stops_loop_witness :
    (App.stepApp (App.stepApp (App.startProcessMonitoring initApp) (App.AppEvent.tick 0))
      (App.AppEvent.resolve 0 App.FetchOutcome.httpError)).emittedErrors
      = ["Unable to get processing status"]
    ∧ (App.stepApp (App.stepApp (App.startProcessMonitoring initApp) (App.AppEvent.tick 0))
      (App.AppEvent.resolve 0 App.FetchOutcome.httpError)).generateButtonDisabled = false := by
  have h := poll_transport_failure_stops_loop
    (App.stepApp (App.startProcessMonitoring initApp) (App.AppEvent.tick 0)) 0
    App.FetchOutcome.httpError (by decide) (Or.inr rfl)
  exact ⟨h.2.1, h.2.2⟩

/-- C3 counterexample: reset is invoked between the dispatch and the
resolution of a status request; the later resolution is not discarded —
it overwrites the progress width and, for a completed body, reveals the
download section of the already-reset page. -/
theorem stale_resolution_counterexample :
    let s2 := App.stepApp
      (App.stepApp (App.startProcessMonitoring initApp) (App.AppEvent.tick 0))
      App.AppEvent.reset
    s2.processCheckInterval = none ∧ s2.progressWidth = 0 ∧ s2.inFlight = [0]
    ∧ (App.stepApp s2 (App.AppEvent.resolve 0
        (App.FetchOutcome.ok ⟨"processing", some 50, none⟩))).progressWidth = 50
    ∧ (App.stepApp s2 (App.AppEvent.resolve 0
        (App.FetchOutcome.ok ⟨"completed", some 100, none⟩))).downloadSectionVisible
      = true := by
  refine ⟨rfl, rfl, rfl, by decide, by decide⟩

/-- C3 amended: the poller performs no active-poller check on resolution.
Even after stop/reset has cleared the interval handle, a resolving status
request applies its effects to the current page: a non-terminal body
overwrites the progress width, and a completed body reveals the download
section and the success banner. -/
theorem stale_resolution_applied (s : AppState) (r : Nat) (st : App.StatusJson)
    (hr : r ∈ s.inFlight)
    (hstop : s.processCheckInterval = none)
    (hc : st.status ≠ "completed") (hf : st.status ≠ "failed") :
    (App.stepApp s (App.AppEvent.resolve r (App.FetchOutcome.ok st))).progressWidth
      = st.progress.getD 0
    ∧ (App.stepApp s (App.AppEvent.resolve r
        (App.FetchOutcome.ok ⟨"completed", st.progress, st.error⟩))).downloadSectionVisible
      = true
    ∧ (App.stepApp s (App.AppEvent.resolve r
        (App.FetchOutcome.ok ⟨"completed", st.progress, st.error⟩))).successVisible
      = true := by
  refine ⟨?_, ?_, ?_⟩ <;>
    simp [App.stepApp, hr, App.resolveStatus, App.updateProgress, hc, hf,
      App.showDownloadSection, App.clearIntervalJs, hstop]

/-- C3 witness at the concrete reset-then-resolve run. -/
theorem stale_resolution_applied_witness :
    (App.stepApp
      (App.stepApp (App.stepApp (App.startProcessMonitoring initApp) (App.AppEvent.tick 0))
        App.AppEvent.reset)
      (App.AppEvent.resolve 0 (App.FetchOutcome.ok ⟨"extracting", some 42, none⟩))).progressWidth
      = (some 42).getD 0 := by
  have h := stale_resolution_applied
    (App.stepApp (App.stepApp (App.startProcessMonitoring initApp) (App.AppEvent.tick 0))
      App.AppEvent.reset)
    0 ⟨"extracting", some 42, none⟩ (by decide) rfl (by decide) (by decide)
  exact h.1

/-- C4 counterexample: under a backend that has not yet answered the
first status request, the second timer tick dispatches a second request —
two poll requests are simultaneously in flight, contradicting the
at-most-one claim. -/
theorem inflight_buildup_counterexample :
    (App.stepApp (App.stepApp (App.startProcessMonitoring initApp) (App.AppEvent.tick 0))
      (App.AppEvent.tick 0)).inFlight = [0, 1] := by
  rfl

/-- C4 amended: the polling loop has no in-flight guard: every tick of a
registered interval dispatches a new status request unconditionally, so
the number of outstanding requests grows by one per tick regardless of
backend latency. -/
theorem tick_always_dispatches (s : AppState) (h : Nat)
    (hh : h ∈ s.activeIntervals) :
    (App.stepApp s (App.AppEvent.tick h)).inFlight = s.inFlight ++ [s.nextReqId]
    ∧ (App.stepApp s (App.AppEvent.tick h)).inFlight.length = s.inFlight.length + 1 := by
  simp [App.stepApp, hh]

/-- C6 counterexample: with a process id stored and the word button
already in the downloading (InFlight) phase, a second downloadFile call
for word is not rejected — it dispatches another artifact request, so it
has side effects, contradicting the claim. -/
theorem downloadFile_second_call_counterexample :
    let d1 := DownloadManager.downloadFileStart
      (DownloadManager.initializeDownloads DownloadManager.initDL "abc123") "word"
    d1.wordBtn.phase = some BtnPhase.downloading
    ∧ d1.requestsIssued = 1
    ∧ (DownloadManager.downloadFileStart d1 "word").requestsIssued = 2
    ∧ (DownloadManager.downloadFileStart d1 "word").wordBtn.phase
      = some BtnPhase.downloading := by
  refine ⟨rfl, rfl, rfl, rfl⟩

/-- C6 amended: downloadFile guards only against a missing (falsy)
process id, never against the current phase: whenever an id is stored, a
call — including a second call while the button is already InFlight —
moves the chosen button to downloading and dispatches one more request.
The settled phases behave as claimed: success turns the button to
completed with a 3000 ms revert to idle, failure turns it to error with a
5000 ms revert. -/
theorem downloadFile_no_inflight_guard (s : DLState) (ft : String) (cd : Option String)
    (hp : DownloadManager.pidMissing s.currentProcessId = false) :
    (DownloadManager.downloadFileStart s ft).requestsIssued = s.requestsIssued + 1
    ∧ (DownloadManager.btnOf (DownloadManager.downloadFileStart s ft) ft).phase
      = some BtnPhase.downloading
    ∧ (DownloadManager.btnOf
        (DownloadManager.downloadFileResolve s ft (DownloadManager.DlOutcome.ok cd)) ft).phase
      = some BtnPhase.completed
    ∧ (DownloadManager.downloadFileResolve s ft (DownloadManager.DlOutcome.ok cd)).pendingReverts
      = s.pendingReverts ++ [(ft, 3000)]
    ∧ (DownloadManager.btnOf
        (DownloadManager.downloadFileResolve s ft DownloadManager.DlOutcome.fail) ft).phase
      = some BtnPhase.error
    ∧ (DownloadManager.downloadFileResolve s ft DownloadManager.DlOutcome.fail).pendingReverts
      = s.pendingReverts ++ [(ft, 5000)] := by
  by_cases hft : ft = "word" <;>
    simp [DownloadManager.downloadFileStart, DownloadManager.downloadFileResolve, hp, hft,
      DownloadManager.setDownloadButtonState, DownloadManager.setBtn, DownloadManager.btnOf,
      DownloadManager.showSuccess, DownloadManager.showError, DownloadManager.showMessage]

/-- C6 witness at a concrete second call while InFlight. -/
theorem downloadFile_no_inflight_guard_witness :
    (DownloadManager.downloadFileStart
      (DownloadManager.downloadFileStart
        (DownloadManager.initializeDownloads DownloadManager.initDL "abc123") "word")
      "word").requestsIssued
    = (DownloadManager.downloadFileStart
        (DownloadManager.initializeDownloads DownloadManager.initDL "abc123")
        "word").requestsIssued + 1 :=
  (downloadFile_no_inflight_guard
    (DownloadManager.downloadFileStart
      (DownloadManager.initializeDownloads DownloadManager.initDL "abc123") "word")
    "word" none (by rfl)).1

/-- C7: showNotification schedules exactly one automatic dismissal 5000
ms out for the success, warning, and info kinds, and schedules none for
the error kind, which therefore disappears only through an explicit
dismissal. -/
theorem showNotification_autodismiss (s : UXState) (now : Nat) (k t m : String)
    (acts : List (String × String)) :
    ((k = "success" ∨ k = "warning" ∨ k = "info") →
      (EnhancedUX.showNotification s now k t m acts).1.autoDismissals
        = s.autoDismissals ++ [(toString now, 5000)])
    ∧ (k = "error" →
      (EnhancedUX.showNotification s now k t m acts).1.autoDismissals
        = s.autoDismissals) := by
  constructor
  · intro hk
    have hke : k ≠ "error" := by rcases hk with h | h | h <;> subst h <;> decide
    simp [EnhancedUX.showNotification, hke]
  · intro hk
    subst hk
    simp [EnhancedUX.showNotification]

/-- C7 witness at a success and an error notification. -/
theorem showNotification_autodismiss_witness :
    (EnhancedUX.showNotification ⟨[], []⟩ 42 "success" "Success!" "done" []).1.autoDismissals
      = [] ++ [(toString 42, 5000)]
    ∧ (EnhancedUX.showNotification ⟨[], []⟩ 42 "error" "Error Occurred" "failed"
        []).1.autoDismissals = [] :=
  ⟨(showNotification_autodismiss ⟨[], []⟩ 42 "success" "Success!" "done" []).1 (Or.inl rfl),
   (showNotification_autodismiss ⟨[], []⟩ 42 "error" "Error Occurred" "failed" []).2 rfl⟩

/-- C8: reset is idempotent for both the page state and the download
manager — a second reset right after a first is the identity — and a
reset leaves no stored file id, no selected file, no interval handle, and
both download buttons in the idle presentation; when the active set held
exactly the registered handle, it is emptied. -/
theorem reset_idempotent (s : AppState) (d : DLState) :
    App.handleReset (App.handleReset s) = App.handleReset s
    ∧ DownloadManager.reset (DownloadManager.reset d) = DownloadManager.reset d
    ∧ (App.handleReset s).currentFileId = none
    ∧ (App.handleReset s).selectedFile = none
    ∧ (App.handleReset s).processCheckInterval = none
    ∧ ((s.activeIntervals = match s.processCheckInterval with
          | some h => [h]
          | none => []) →
        (App.handleReset s).activeIntervals = [])
    ∧ (DownloadManager.reset d).currentProcessId = none
    ∧ (DownloadManager.reset d).wordBtn.phase = none
    ∧ (DownloadManager.reset d).pdfBtn.phase = none := by
  refine ⟨?_, ?_, ?_, ?_, ?_, ?_, ?_, ?_, ?_⟩ <;>
    cases hpc : s.processCheckInterval <;>
      simp [App.handleReset, App.resetGenerateButton, hpc, DownloadManager.reset,
        DownloadManager.setDownloadButtonState, DownloadManager.setBtn,
        DownloadManager.defaultBtnText]
  all_goals intro hai
  all_goals simp [hai]

/-- C8 witness at a state with a registered interval. -/
theorem reset_idempotent_witness :
    App.handleReset (App.handleReset (App.startProcessMonitoring initApp))
      = App.handleReset (App.startProcessMonitoring initApp)
    ∧ (App.handleReset (App.startProcessMonitoring initApp)).activeIntervals = [] := by
  have h := reset_idempotent (App.startProcessMonitoring initApp) DownloadManager.initDL
  exact ⟨h.1, h.2.2.2.2.2.1 rfl⟩

/-- C9: the stored progress of the ProgressManager never exceeds 100
after any of its operations (updateProgress clamps through Math.min, the
other operations route through it or write 0, and the success-false
branch leaves the state alone), a percentage at most 100 — in particular
one lower than the previous value — is stored as-is, and no lower bound
is enforced. -/
theorem progress_clamped (s : PMState) (p : Int) (msg : Option String) (handle : Nat)
    (m1 m2 : String) (o : Option ProgressManager.ProgressJson)
    (hs : s.currentProgress ≤ 100) :
    (ProgressManager.updateProgress s p msg).currentProgress ≤ 100
    ∧ (p ≤ 100 → (ProgressManager.updateProgress s p msg).currentProgress = p)
    ∧ (ProgressManager.startProgress s handle).currentProgress ≤ 100
    ∧ (ProgressManager.completeProgress s m1).currentProgress ≤ 100
    ∧ (ProgressManager.errorProgress s m2).currentProgress ≤ 100
    ∧ (ProgressManager.checkProgressResolve s o).currentProgress ≤ 100
    ∧ (ProgressManager.reset s).currentProgress ≤ 100
    ∧ ProgressManager.initPM.currentProgress ≤ 100 := by
  refine ⟨min_le_right p 100, fun hp => min_eq_left hp, ?_, ?_, ?_, ?_, ?_, ?_⟩
  · simp [ProgressManager.startProgress, ProgressManager.updateProgress]
  · simp [ProgressManager.completeProgress, ProgressManager.updateProgress,
      ProgressManager.stopInterval]
  · simpa [ProgressManager.errorProgress, ProgressManager.updateProgress,
      ProgressManager.stopInterval] using min_le_right s.currentProgress 100
  · cases o with
    | none =>
        simpa [ProgressManager.checkProgressResolve, ProgressManager.errorProgress,
          ProgressManager.updateProgress, ProgressManager.stopInterval]
          using min_le_right s.currentProgress 100
    | some d =>
        by_cases hd : d.success = true
        · simp only [ProgressManager.checkProgressResolve, hd, if_true]
          split
          · simp [ProgressManager.completeProgress, ProgressManager.updateProgress,
              ProgressManager.stopInterval]
          · split
            · simpa [ProgressManager.errorProgress, ProgressManager.updateProgress,
                ProgressManager.stopInterval]
                using min_le_right (min d.progress 100) 100
            · simpa [ProgressManager.updateProgress] using min_le_right d.progress 100
        · have hd2 : d.success = false := by simpa using hd
          simpa [ProgressManager.checkProgressResolve, hd2] using hs
  · simp [ProgressManager.reset, ProgressManager.hideProgress, ProgressManager.stopInterval]
  · simp [ProgressManager.initPM]

/-- C9 witness: 150 is clamped to at most 100 and 50 is stored as-is. -/
theorem progress_clamped_witness :
    (ProgressManager.updateProgress ProgressManager.initPM 150 none).currentProgress ≤ 100
    ∧ (ProgressManager.updateProgress ProgressManager.initPM 50 none).currentProgress = 50 :=
  ⟨(progress_clamped ProgressManager.initPM 150 none 0 "" "" none (by decide)).1,
   (progress_clamped ProgressManager.initPM 50 none 0 "" "" none (by decide)).2.1
     (by decide)⟩

/-- Evaluation of the short-circuit field read on a decoded object. -/
theorem jsAndGet_obj (fs : List (String × JsVal)) (f1 f2 : String) :
    jsAndGet (JsVal.jobj fs) f1 f2
      = Except.ok
          (if truthy (getField fs f1) then jsFieldOf (getField fs f1) f2
           else getField fs f1) := by
  show (if truthy (getField fs f1) then jsGet (getField fs f1) f2
        else Except.ok (getField fs f1)) = _
  generalize getField fs f1 = v
  cases v with
  | undefined => simp [truthy, jsFieldOf]
  | jnull => simp [truthy, jsFieldOf]
  | jbool b => cases b <;> simp [truthy, jsFieldOf, jsGet]
  | jnum n => by_cases hn : n = 0 <;> simp [truthy, jsFieldOf, jsGet, hn]
  | jstr st => by_cases hst : st.isEmpty = true <;> simp [truthy, jsFieldOf, jsGet, hst]
  | jobj fs2 => simp [truthy, jsFieldOf, jsGet]

/-- C10: checkDownloadStatus is total. When the availability fetch or its
JSON decode fails — and likewise when the decoded body is null or
undefined, so that field access throws inside the try block — it returns
the fixed failure object; on a decoded object body it returns the success
and message fields verbatim and readiness values whose truthiness equals
that of the word and pdf entries under files. -/
theorem checkDownloadStatus_total (fs : List (String × JsVal)) :
    DownloadManager.checkDownloadStatus (Except.error ())
      = ⟨JsVal.jbool false, JsVal.jbool false, JsVal.jbool false,
         JsVal.jstr "Failed to check download status"⟩
    ∧ DownloadManager.checkDownloadStatus (Except.ok JsVal.jnull)
      = ⟨JsVal.jbool false, JsVal.jbool false, JsVal.jbool false,
         JsVal.jstr "Failed to check download status"⟩
    ∧ (DownloadManager.checkDownloadStatus (Except.ok (JsVal.jobj fs))).success
      = getField fs "success"
    ∧ (DownloadManager.checkDownloadStatus (Except.ok (JsVal.jobj fs))).message
      = getField fs "message"
    ∧ truthy (DownloadManager.checkDownloadStatus (Except.ok (JsVal.jobj fs))).wordReady
      = (truthy (getField fs "files") && truthy (jsFieldOf (getField fs "files") "word"))
    ∧ truthy (DownloadManager.checkDownloadStatus (Except.ok (JsVal.jobj fs))).pdfReady
      = (truthy (getField fs "files") && truthy (jsFieldOf (getField fs "files") "pdf")) := by
  refine ⟨rfl, rfl, ?_, ?_, ?_, ?_⟩ <;>
    simp only [DownloadManager.checkDownloadStatus, jsGet, jsAndGet_obj] <;>
      by_cases ht : truthy (getField fs "files") = true <;>
        simp [ht]

/-- C4 witness at the concrete one-tick state. -/
theorem tick_always_dispatches_witness :
    (App.stepApp (App.stepApp (App.startProcessMonitoring initApp) (App.AppEvent.tick 0))
      (App.AppEvent.tick 0)).inFlight.length
      = (App.stepApp (App.startProcessMonitoring initApp)
          (App.AppEvent.tick 0)).inFlight.length + 1 :=
  (tick_always_dispatches
    (App.stepApp (App.startProcessMonitoring initApp) (App.AppEvent.tick 0)) 0
    (by decide)).2

open DownloadManager

/-- A list starts with itself in front of any continuation. -/
theorem listStartsWith_append (p rest : List Char) : listStartsWith (p ++ rest) p = true := by
  induction p with
  | nil => cases rest <;> rfl
  | cons a as ih => simp [listStartsWith, ih]

/-- A list containing the needle at its head contains the needle. -/
theorem containsSub_of_startsWith (s p : List Char) (h : listStartsWith s p = true) :
    containsSub s p = true := by
  cases s with
  | nil =>
      cases p with
      | nil => rfl
      | cons b bs => simp [listStartsWith] at h
  | cons c cs => simp [containsSub, h]

/-- Containment is preserved by prepending. -/
theorem containsSub_append_left (a s p : List Char) (h : containsSub s p = true) :
    containsSub (a ++ s) p = true := by
  induction a with
  | nil => simpa using h
  | cons c cs ih => simp [containsSub, ih]

/-- When every anchored attempt inside the front part fails, the leftmost
match of the whole list is the leftmost match of the rest. -/
theorem findGroup1_append (p s : List Char) (h : scanFails p s = true) :
    findGroup1 (p ++ s) = findGroup1 s := by
  induction p with
  | nil => rfl
  | cons c cs ih =>
      simp only [scanFails, List.cons_append, Bool.and_eq_true,
        Option.isNone_iff_eq_none] at h
      simp [findGroup1, h.1, ih h.2]

/-- A successful anchored attempt at the head is the leftmost match. -/
theorem findGroup1_of_matchAt (l g : List Char) (h : matchAt l = some g) :
    findGroup1 l = some g := by
  cases l with
  | nil =>
      rw [show matchAt ([] : List Char) = none by decide] at h
      exact Option.noConfusion h
  | cons a as => simp [findGroup1, h]

/-- The anchored attempt right at the filename= occurrence: the class-A
run in front of the equals sign is empty and the capture group is matched
against the text after it. -/
theorem matchAt_prefix_eq (tail : List Char) :
    matchAt ("filename".data ++ '=' :: tail) = some (group1 tail) := by
  have h1 : listStartsWith ("filename".data ++ '=' :: tail) ("filename".data) = true :=
    listStartsWith_append _ _
  have hl : ("filename".data).length = 8 := rfl
  have h2 : ("filename".data ++ '=' :: tail).drop 8 = '=' :: tail := by
    rw [← hl]
    exact List.drop_left _ _
  have h3 : ('=' :: tail).takeWhile classAChar = [] := by
    rw [List.takeWhile_cons]
    simp [show classAChar '=' = false from rfl]
  simp [matchAt, h1, h2, h3]
  exact h1

/-- The lazy dot run stops exactly at the first closing quote. -/
theorem lazyQuoted_exact (q : Char) (v rest : List Char)
    (hv : ∀ c ∈ v, dotChar c = true ∧ c ≠ q) :
    lazyQuoted q (v ++ q :: rest) = some v := by
  induction v with
  | nil => simp [lazyQuoted]
  | cons c cs ih =>
      obtain ⟨hd, hne⟩ := hv c (by simp)
      have ih2 := ih fun x hx => hv x (by simp [hx])
      simp [lazyQuoted, hne, hd, ih2]

/-- takeWhile keeps a list all of whose elements pass. -/
theorem takeWhile_of_all (p : Char → Bool) (v : List Char) (h : ∀ c ∈ v, p c = true) :
    v.takeWhile p = v := by
  induction v with
  | nil => rfl
  | cons c cs ih =>
      rw [List.takeWhile_cons]
      simp [h c (by simp), ih fun x hx => h x (by simp [hx])]

/-- filter keeps a list all of whose elements pass. -/
theorem filter_of_all (p : Char → Bool) (v : List Char) (h : ∀ c ∈ v, p c = true) :
    v.filter p = v := by
  induction v with
  | nil => rfl
  | cons c cs ih =>
      rw [List.filter_cons]
      simp [h c (by simp), ih fun x hx => h x (by simp [hx])]

/-- The capture group on a well-formed quoted value is the value with its
surrounding quotes. -/
theorem group1_quoted (q : Char) (v : List Char) (hq : isQuoteChar q = true)
    (hv : ∀ c ∈ v, dotChar c = true ∧ c ≠ q) :
    group1 (q :: (v ++ [q])) = q :: (v ++ [q]) := by
  have := lazyQuoted_exact q v [] hv
  simp [group1, hq, this]

/-- The capture group on a well-formed unquoted value is the value. -/
theorem group1_unquoted (v : List Char) (hne : v ≠ [])
    (hv1 : ∀ c ∈ v, isQuoteChar c = false)
    (hv2 : ∀ c ∈ v, classBChar c = true) :
    group1 v = v := by
  cases v with
  | nil => exact absurd rfl hne
  | cons c cs =>
      have ht : (c :: cs).takeWhile classBChar = c :: cs := takeWhile_of_all _ _ hv2
      simp [group1, hv1 c (by simp), ht]

/-- The leftmost match of a header made of a matchless front part and a
filename= occurrence captures exactly the group after the equals sign. -/
theorem findGroup1_header (pre tail : List Char)
    (h : scanFails pre ("filename".data ++ '=' :: tail) = true) :
    findGroup1 (pre ++ ("filename".data ++ '=' :: tail)) = some (group1 tail) := by
  rw [findGroup1_append _ _ h, findGroup1_of_matchAt _ _ (matchAt_prefix_eq tail)]

/-- C5: for every header value of the shape prefix-then-filename= with a
double-quoted or unquoted value made of ordinary characters (no quotes,
no separators, no line terminators), and with no spurious regex match
inside the prefix, extractFilename returns exactly the value with quotes
stripped; for an absent header, and for a header not containing
filename=, it returns meeting_minutes followed by the date stamp, with
extension docx for the word type and pdf otherwise. -/
theorem extractFilename_spec (pre v cd ft ts : String)
    (hv : ∀ c ∈ v.data, isQuoteChar c = false ∧ classAChar c = true ∧ dotChar c = true)
    (hne : v.data ≠ [])
    (hq : scanFails pre.data
      ("filename".data ++ '=' :: dquote :: (v.data ++ [dquote])) = true)
    (hu : scanFails pre.data ("filename".data ++ '=' :: v.data) = true)
    (hnm : containsSub cd.data ("filename=".data) = false) :
    extractFilename (some (pre ++ "filename=\"" ++ v ++ "\"")) ft ts = v
    ∧ extractFilename (some (pre ++ "filename=" ++ v)) ft ts = v
    ∧ extractFilename none ft ts
      = "meeting_minutes_" ++ ts ++ "." ++ (if ft = "word" then "docx" else "pdf")
    ∧ extractFilename (some cd) ft ts
      = "meeting_minutes_" ++ ts ++ "." ++ (if ft = "word" then "docx" else "pdf") := by
  have hnq : ∀ c ∈ v.data, isQuoteChar c = false := fun c hc => (hv c hc).1
  have hdq : ∀ c ∈ v.data, dotChar c = true ∧ c ≠ dquote := by
    intro c hc
    refine ⟨(hv c hc).2.2, ?_⟩
    have h1 := (hv c hc).1
    simp [isQuoteChar] at h1
    exact h1.2
  have hB : ∀ c ∈ v.data, classBChar c = true := by
    intro c hc
    have h1 := (hv c hc).2.1
    simp [classAChar] at h1
    simp [classBChar, h1.1.1, h1.2]
  have hfq : ("filename=\"").data = "filename".data ++ ['=', dquote] := by decide
  have hq2 : ("\"").data = [dquote] := by decide
  have hfd : ("filename=").data = "filename".data ++ ['='] := by decide
  have hpatne : ("filename=".data).isEmpty = false := by decide
  refine ⟨?_, ?_, rfl, ?_⟩
  · -- quoted header
    have e1 : (pre ++ "filename=\"" ++ v ++ "\"").data
        = pre.data ++ ("filename".data ++ '=' :: dquote :: (v.data ++ [dquote])) := by
      rw [String.data_append, String.data_append, String.data_append, hfq, hq2]
      simp [List.append_assoc]
    have hstart : listStartsWith
        ("filename".data ++ '=' :: dquote :: (v.data ++ [dquote])) ("filename=".data)
        = true := by
      rw [hfd]
      have := listStartsWith_append ("filename".data ++ ['=']) (dquote :: (v.data ++ [dquote]))
      simpa using this
    have hcontains : containsSub
        (pre.data ++ ("filename".data ++ '=' :: dquote :: (v.data ++ [dquote])))
        ("filename=".data) = true :=
      containsSub_append_left _ _ _ (containsSub_of_startsWith _ _ hstart)
    have hnemp : (pre.data
        ++ ("filename".data ++ '=' :: dquote :: (v.data ++ [dquote]))).isEmpty = false := by
      cases hps : pre.data ++ ("filename".data ++ '=' :: dquote :: (v.data ++ [dquote])) with
      | nil =>
          rw [hps] at hcontains
          rw [show containsSub [] ("filename=".data) = ("filename=".data).isEmpty from rfl,
            hpatne] at hcontains
          exact absurd hcontains (by decide)
      | cons a l => rfl
    have hg : group1 (dquote :: (v.data ++ [dquote])) = dquote :: (v.data ++ [dquote]) :=
      group1_quoted dquote v.data (by decide) hdq
    have hfind := findGroup1_header pre.data (dquote :: (v.data ++ [dquote])) hq
    have hfil : (dquote :: (v.data ++ [dquote])).filter (fun c => !isQuoteChar c)
        = v.data := by
      rw [List.filter_cons]
      simp [show isQuoteChar dquote = true from rfl, List.filter_append,
        filter_of_all (fun c => !isQuoteChar c) v.data (fun c hc => by simp [hnq c hc])]
    simp only [extractFilename, e1, hnemp, hcontains, Bool.not_false, Bool.and_self,
      if_true, hfind, hg]
    simp [hfil]
  · -- unquoted header
    have e2 : (pre ++ "filename=" ++ v).data
        = pre.data ++ ("filename".data ++ '=' :: v.data) := by
      rw [String.data_append, String.data_append, hfd]
      simp [List.append_assoc]
    have hstart : listStartsWith ("filename".data ++ '=' :: v.data) ("filename=".data)
        = true := by
      rw [hfd]
      have := listStartsWith_append ("filename".data ++ ['=']) v.data
      simpa using this
    have hcontains : containsSub (pre.data ++ ("filename".data ++ '=' :: v.data))
        ("filename=".data) = true :=
      containsSub_append_left _ _ _ (containsSub_of_startsWith _ _ hstart)
    have hnemp : (pre.data ++ ("filename".data ++ '=' :: v.data)).isEmpty = false := by
      cases hps : pre.data ++ ("filename".data ++ '=' :: v.data) with
      | nil =>
          rw [hps] at hcontains
          rw [show containsSub [] ("filename=".data) = ("filename=".data).isEmpty from rfl,
            hpatne] at hcontains
          exact absurd hcontains (by decide)
      | cons a l => rfl
    have hg : group1 v.data = v.data := group1_unquoted v.data hne hnq hB
    have hfind := findGroup1_header pre.data v.data hu
    have hfil : v.data.filter (fun c => !isQuoteChar c) = v.data :=
      filter_of_all _ _ fun c hc => by simp [hnq c hc]
    simp only [extractFilename, e2, hnemp, hcontains, Bool.not_false, Bool.and_self,
      if_true, hfind, hg]
    simp [hfil, hne]
  · -- non-matching header
    have hcond : (!cd.data.isEmpty && containsSub cd.data ("filename=".data)) = false := by
      rw [hnm, Bool.and_false]
    simp [extractFilename, hcond]

/-- C5 witness: the exact example of the claim, and the fallback for an
absent header for the word type. -/
theorem extractFilename_spec_witness :
    extractFilename (some "attachment; filename=\"minutes_2024.docx\"") "word" "2024-03-15"
      = "minutes_2024.docx"
    ∧ extractFilename none "word" "2024-03-15" = "meeting_minutes_2024-03-15.docx" := by
  have h := extractFilename_spec "attachment; " "minutes_2024.docx" "attachment" "word"
    "2024-03-15" (by decide) (by decide) (by decide) (by decide) (by decide)
  have e : "attachment; " ++ "filename=\"" ++ "minutes_2024.docx" ++ "\""
      = "attachment; filename=\"minutes_2024.docx\"" := by decide
  refine ⟨?_, ?_⟩
  · rw [← e]
    exact h.1
  · rw [h.2.2.1]
    decide

end RapidMinutes
